import Mathlib

/-!
Shallow embedding of the sale-transaction processor of the POS backend
(`src/backend/server.js`, route `POST /api/ventas`, lines 960-1057, together
with the Joi validation schema `schemas.ventaPOST` at lines 522-538 and the
`validate` middleware at lines 457-471).

Modelling conventions:
- JS numbers carrying money are modelled by `ℚ`; ids, quantities and stock
  are modelled by `ℤ` (the Joi schema checks `integer()` on them).
- The SQLite store is a record of lists of rows (`DB`).  A Sequelize
  transaction is modelled by threading a working copy of the `DB` through the
  handler body; an error result discards the working copy (`rollback`), while
  the single success exit keeps it (`commit`).
- Any store primitive (`Venta.create`, `Producto.findByPk`, `producto.update`,
  `VentaDetalle.bulkCreate`, `nuevaVenta.update`, `Cliente.findByPk`,
  `cliente.update`, `transaction.commit`) may throw a storage-level error.
  This is modelled by an oracle `Nat → Bool` consulted at each primitive, in
  program order; a `true` answer makes the primitive throw, which lands in the
  handler's `catch` block (rollback + error 500).
- JS truthiness of a number (`x || y`, `if (cliente_id)`) is modelled
  explicitly: `0` (and an absent value) is falsy.
-/

/-- Row of table `productos` (model `Producto`, server.js lines 60-94). -/
structure Producto where
  id : ℤ
  nombre : String
  descripcion : Option String
  precio_venta : ℚ
  costo_compra : Option ℚ
  stock : ℤ
  categoria_id : ℤ
  deriving Repr, DecidableEq

/-- Row of table `clientes` (model `Cliente`, server.js lines 97-155). -/
structure Cliente where
  id : ℤ
  nombre : String
  apellido : Option String
  telefono : String
  direccion : Option String
  email : Option String
  fecha_registro : ℕ
  ultima_compra : Option ℕ
  ticket_promedio : ℚ
  productos_favoritos : Option String
  deriving Repr, DecidableEq

/-- Row of table `ventas` (model `Venta`, server.js lines 188-218). -/
structure Venta where
  id : ℤ
  fecha_venta : ℕ
  total : ℚ
  metodo_pago : String
  estado : String
  cliente_id : Option ℤ
  usuario_id : ℤ
  deriving Repr, DecidableEq

/-- Row of table `ventas_detalles` (model `VentaDetalle`, server.js lines
221-247). -/
structure VentaDetalle where
  id : ℤ
  cantidad : ℤ
  precio_unitario : ℚ
  subtotal : ℚ
  venta_id : ℤ
  producto_id : ℤ
  deriving Repr, DecidableEq

/-- The persistent store: the four tables the sale transaction touches, plus
the auto-increment counters for the two tables it inserts into. -/
structure DB where
  productos : List Producto
  clientes : List Cliente
  ventas : List Venta
  ventas_detalles : List VentaDetalle
  nextVentaId : ℤ
  nextDetalleId : ℤ
  deriving Repr, DecidableEq

/-- One element of the request's `detalles` array
(`{ producto_id, cantidad, precio_unitario }`).  `precio_unitario` is
`Option` because the JSON field may be absent; the Joi schema then rejects
the request, but the handler body itself also guards with `||`. -/
structure VentaItem where
  producto_id : ℤ
  cantidad : ℤ
  precio_unitario : Option ℚ
  deriving Repr, DecidableEq

/-- Body of `POST /api/ventas`:
`{ cliente_id, metodo_pago, detalles, total }`. -/
structure VentaRequest where
  cliente_id : Option ℤ
  metodo_pago : String
  detalles : List VentaItem
  total : Option ℚ
  deriving Repr, DecidableEq

/-- Classified outcome of a failed request, per the route's error exits:
422 from the `validate` middleware, 404 `Producto ... no encontrado`,
400 `No hay suficiente stock para ...`, and the catch-all 500. -/
inductive VentaError where
  | validationError
  | notFound (producto_id : ℤ)
  | insufficientStock (nombre : String) (stock : ℤ)
  | storageError
  deriving Repr, DecidableEq

/-- JS `x || y` on a possibly-absent number: `0` is falsy, so both an absent
value and an explicit `0` fall back to `y` (server.js line 1001-1002). -/
def jsOr (x : Option ℚ) (y : ℚ) : ℚ :=
  match x with
  | none => y
  | some v => if v = 0 then y else v

/-- JS truthiness of a possibly-absent integer (`cliente_id || null`,
`if (cliente_id)`): absent and `0` are falsy. -/
def jsTruthyInt (x : Option ℤ) : Option ℤ :=
  match x with
  | none => none
  | some v => if v = 0 then none else some v

/-- `Producto.findByPk(pid)`: first row of `productos` with that id. -/
def findProducto (db : DB) (pid : ℤ) : Option Producto :=
  db.productos.find? fun p => p.id == pid

/-- `Cliente.findByPk(cid)`: first row of `clientes` with that id. -/
def findCliente (db : DB) (cid : ℤ) : Option Cliente :=
  db.clientes.find? fun c => c.id == cid

/-- `Venta.findByPk(vid)`: first row of `ventas` with that id. -/
def findVenta (db : DB) (vid : ℤ) : Option Venta :=
  db.ventas.find? fun v => v.id == vid

/-- `producto.update({ stock: v })` inside the transaction: overwrite the
stock of the row(s) with that id. -/
def updateStock (db : DB) (pid : ℤ) (v : ℤ) : DB :=
  { db with productos :=
      db.productos.map fun p => if p.id == pid then { p with stock := v } else p }

/-- `nuevaVenta.update({ total: t })` inside the transaction. -/
def updateVentaTotal (db : DB) (vid : ℤ) (t : ℚ) : DB :=
  { db with ventas :=
      db.ventas.map fun v => if v.id == vid then { v with total := t } else v }

/-- `cliente.update({ ultima_compra: new Date() })` inside the transaction. -/
def updateClienteUltimaCompra (db : DB) (cid : ℤ) (now : ℕ) : DB :=
  { db with clientes :=
      db.clientes.map fun c =>
        if c.id == cid then { c with ultima_compra := some now } else c }

/-- One store primitive: consult the failure oracle at position `k`; on
`true` the primitive throws (caught by the route's `catch`), otherwise
execution continues at position `k + 1`. -/
def storOp (oracle : ℕ → Bool) (k : ℕ) : Except VentaError ℕ :=
  if oracle k then .error .storageError else .ok (k + 1)

/-- A line-item record staged in the `detallesVenta` array before
`VentaDetalle.bulkCreate` assigns ids (server.js lines 1006-1012). -/
structure StagedDetalle where
  venta_id : ℤ
  producto_id : ℤ
  cantidad : ℤ
  precio_unitario : ℚ
  subtotal : ℚ
  deriving Repr, DecidableEq

/-- `VentaDetalle.bulkCreate`: turn the staged records into rows, assigning
consecutive auto-increment ids starting at `nid`. -/
def assignIds (nid : ℤ) : List StagedDetalle → List VentaDetalle
  | [] => []
  | s :: rest =>
      { id := nid, cantidad := s.cantidad, precio_unitario := s.precio_unitario,
        subtotal := s.subtotal, venta_id := s.venta_id,
        producto_id := s.producto_id } :: assignIds (nid + 1) rest

/-- The `for (const item of detalles)` loop (server.js lines 985-1018): for
each item, `Producto.findByPk` (a store primitive), the 404 check, the stock
check, the effective price `item.precio_unitario || producto.precio_venta`,
the subtotal and running total, the staged detalle, and `producto.update`
(a store primitive).  Arguments: the oracle, the new sale's id, the items
still to process, the working store, the running total `totalCalculado`,
the staged list `detallesVenta`, and the primitive counter. -/
def procesarDetalles (oracle : ℕ → Bool) (venta_id : ℤ) :
    List VentaItem → DB → ℚ → List StagedDetalle → ℕ →
    Except VentaError (DB × List StagedDetalle × ℚ × ℕ)
  | [], db, tot, acc, k => .ok (db, acc, tot, k)
  | item :: rest, db, tot, acc, k =>
    match storOp oracle k with
    | .error e => .error e
    | .ok k =>
      match findProducto db item.producto_id with
      | none => .error (.notFound item.producto_id)
      | some producto =>
        if producto.stock < item.cantidad then
          .error (.insufficientStock producto.nombre producto.stock)
        else
          let precioUnitarioReal := jsOr item.precio_unitario producto.precio_venta
          let subtotalItem := (item.cantidad : ℚ) * precioUnitarioReal
          match storOp oracle k with
          | .error e => .error e
          | .ok k =>
            procesarDetalles oracle venta_id rest
              (updateStock db item.producto_id (producto.stock - item.cantidad))
              (tot + subtotalItem)
              (acc ++ [{ venta_id := venta_id, producto_id := item.producto_id,
                          cantidad := item.cantidad,
                          precio_unitario := precioUnitarioReal,
                          subtotal := subtotalItem }])
              k

/-- The customer step (server.js lines 1023-1028): `if (cliente_id)` then
`Cliente.findByPk` (a store primitive); if the customer resolves,
`cliente.update({ ultima_compra })` (a store primitive); an unresolved
customer is silently skipped. -/
def clienteStep (oracle : ℕ → Bool) (cliente_id : Option ℤ) (now : ℕ)
    (db : DB) (k : ℕ) : Except VentaError (DB × ℕ) :=
  match jsTruthyInt cliente_id with
  | none => .ok (db, k)
  | some cid =>
    match storOp oracle k with
    | .error e => .error e
    | .ok k =>
      match findCliente db cid with
      | none => .ok (db, k)
      | some _ =>
        match storOp oracle k with
        | .error e => .error e
        | .ok k => .ok (updateClienteUltimaCompra db cid now, k)

/-- The sale header row built by `Venta.create` (server.js lines 971-980):
provisional total `total || 0`, `cliente_id || null`, the current date, and
`estado: "completada"`. -/
def nuevaVenta (usuario_id : ℤ) (now : ℕ) (req : VentaRequest) (db : DB) : Venta :=
  { id := db.nextVentaId, fecha_venta := now, total := jsOr req.total 0,
    metodo_pago := req.metodo_pago, estado := "completada",
    cliente_id := jsTruthyInt req.cliente_id, usuario_id := usuario_id }

/-- `Venta.create` (server.js lines 971-980): append the new sale header;
the auto-increment counter advances. -/
def dbConVenta (usuario_id : ℤ) (now : ℕ) (req : VentaRequest) (db : DB) : DB :=
  { db with
    ventas := db.ventas ++ [nuevaVenta usuario_id now req db],
    nextVentaId := db.nextVentaId + 1 }

/-- `VentaDetalle.bulkCreate(detallesVenta)` (server.js line 1020): append
the staged line items as rows with fresh auto-increment ids. -/
def dbBulk (db2 : DB) (staged : List StagedDetalle) : DB :=
  { db2 with
    ventas_detalles := db2.ventas_detalles ++ assignIds db2.nextDetalleId staged,
    nextDetalleId := db2.nextDetalleId + staged.length }

/-- Body of the `try` block (server.js lines 970-1030): `Venta.create` with
the provisional total `total || 0`, the per-item loop, `bulkCreate` of the
staged detalles, the overwrite of the total with `totalCalculado`, the
customer step, and `transaction.commit`.  Returns the working store at commit
together with the new sale's id, or the first error raised. -/
def transaccionVenta (oracle : ℕ → Bool) (usuario_id : ℤ) (now : ℕ)
    (req : VentaRequest) (db : DB) : Except VentaError (DB × ℤ) :=
  match storOp oracle 0 with
  | .error e => .error e
  | .ok k =>
    match procesarDetalles oracle db.nextVentaId req.detalles
        (dbConVenta usuario_id now req db) 0 [] k with
    | .error e => .error e
    | .ok (db2, detallesVenta, totalCalculado, k) =>
      match storOp oracle k with
      | .error e => .error e
      | .ok k =>
        match storOp oracle k with
        | .error e => .error e
        | .ok k =>
          match clienteStep oracle req.cliente_id now
              (updateVentaTotal (dbBulk db2 detallesVenta)
                db.nextVentaId totalCalculado) k with
          | .error e => .error e
          | .ok (db5, k) =>
            match storOp oracle k with
            | .error e => .error e
            | .ok _ => .ok (db5, db.nextVentaId)

/-- The allowed payment methods (`Joi.string().valid(...)`, line 525). -/
def metodosValidos : List String := ["efectivo", "tarjeta", "transferencia", "otros"]

/-- The Joi schema `schemas.ventaPOST` (server.js lines 522-538):
`cliente_id` integer ≥ 1 or null; `metodo_pago` one of the four methods;
`detalles` a non-empty array of items with integer `producto_id ≥ 1`,
integer `cantidad ≥ 1` and required `precio_unitario ≥ 0.01`; `total` a
number ≥ 0 or null. -/
def ventaPOST_valid (r : VentaRequest) : Bool :=
  (match r.cliente_id with
   | none => true
   | some c => decide (1 ≤ c)) &&
  metodosValidos.contains r.metodo_pago &&
  decide (1 ≤ r.detalles.length) &&
  (r.detalles.all fun it =>
    decide (1 ≤ it.producto_id) && decide (1 ≤ it.cantidad) &&
    (match it.precio_unitario with
     | some p => decide (mkRat 1 100 ≤ p)
     | none => false)) &&
  (match r.total with
   | none => true
   | some t => decide ((0 : ℚ) ≤ t))

/-- The whole route `POST /api/ventas`: the `validate(schemas.ventaPOST)`
middleware rejects an invalid body with 422 before the handler (and hence
before any store interaction); otherwise the transaction body runs, its
error exits roll the transaction back (the original store is kept), and its
success exit commits the working store.  Returns the observable store after
the request together with the classified outcome. -/
def postVenta (oracle : ℕ → Bool) (usuario_id : ℤ) (now : ℕ)
    (req : VentaRequest) (db : DB) : DB × Except VentaError ℤ :=
  if ventaPOST_valid req then
    match transaccionVenta oracle usuario_id now req db with
    | .ok (db', vid) => (db', .ok vid)
    | .error e => (db, .error e)
  else
    (db, .error .validationError)

/-- Total quantity requested for a given product across a request's items. -/
def totalQty (items : List VentaItem) (pid : ℤ) : ℤ :=
  ((items.filter fun it => it.producto_id == pid).map (·.cantidad)).sum

/-- The stock of product `pid` as stored, if the product exists. -/
def optStock (db : DB) (pid : ℤ) : Option ℤ :=
  (findProducto db pid).map (·.stock)

/-- Sum of the persisted subtotals of the line items of sale `vid`. -/
def sumSubtotales (db : DB) (vid : ℤ) : ℚ :=
  ((db.ventas_detalles.filter fun d => d.venta_id == vid).map (·.subtotal)).sum

/-- The auto-increment counter `nextVentaId` is fresh: no persisted sale or
line item already uses it.  Holds of any store built by the route itself. -/
def FreshVentaId (db : DB) : Prop :=
  (∀ v ∈ db.ventas, v.id ≠ db.nextVentaId) ∧
  (∀ d ∈ db.ventas_detalles, d.venta_id ≠ db.nextVentaId)

instance : DecidablePred FreshVentaId := fun db => by
  unfold FreshVentaId
  exact instDecidableAnd

/-- The oracle under which no store primitive ever throws. -/
def noFail : ℕ → Bool := fun _ => false

/-- Sum of the subtotals of a staged detalle list (`totalCalculado`). -/
def sumSub (l : List StagedDetalle) : ℚ :=
  (l.map (·.subtotal)).sum

/-- Two product tables agree on everything except possibly the stock column:
exactly the shape of change the per-item loop makes. -/
def StockOnly (l l' : List Producto) : Prop :=
  ∃ f : Producto → ℤ, l' = l.map fun p => { p with stock := f p }

/-- How a staged line item relates to the request item it was built from:
same product and quantity, subtotal = quantity x recorded unit price, and
the recorded unit price is `item.precio_unitario || producto.precio_venta`
where `producto` is the product row (whose price column the loop never
touches, so it can be read in the store `db0` from before the loop). -/
def DetalleCorresponde (db0 : DB) (vid : ℤ) (d : StagedDetalle) (item : VentaItem) : Prop :=
  d.venta_id = vid ∧ d.producto_id = item.producto_id ∧ d.cantidad = item.cantidad ∧
  d.subtotal = (d.cantidad : ℚ) * d.precio_unitario ∧
  ∃ p, findProducto db0 item.producto_id = some p ∧
    d.precio_unitario = jsOr item.precio_unitario p.precio_venta

instance {α : Type} [DecidableEq α] : DecidableEq (Except VentaError α) := fun x y =>
  match x, y with
  | .ok a, .ok b => if h : a = b then .isTrue (by rw [h]) else .isFalse (by simp [h])
  | .error a, .error b =>
      if h : a = b then .isTrue (by rw [h]) else .isFalse (by simp [h])
  | .ok _, .error _ => .isFalse (by simp)
  | .error _, .ok _ => .isFalse (by simp)

/-! ### Concrete instances -/

/-- A concrete catalog row (spec §8's product P: stock 10, price 500). -/
def pEj : Producto :=
  { id := 1, nombre := "P", descripcion := none, precio_venta := 500,
    costo_compra := none, stock := 10, categoria_id := 1 }

/-- A concrete customer row. -/
def cEj : Cliente :=
  { id := 5, nombre := "Juan", apellido := none, telefono := "123",
    direccion := none, email := none, fecha_registro := 0,
    ultima_compra := none, ticket_promedio := 0, productos_favoritos := none }

/-- A concrete store with one product and one customer. -/
def dbEj : DB :=
  { productos := [pEj], clientes := [cEj], ventas := [], ventas_detalles := [],
    nextVentaId := 1, nextDetalleId := 1 }

/-- A valid request: 3 units of product 1 at supplied price 500, advisory
total 999 (deliberately different from the true total 1500). -/
def reqEj : VentaRequest :=
  { cliente_id := some 5, metodo_pago := "efectivo",
    detalles := [{ producto_id := 1, cantidad := 3, precio_unitario := some 500 }],
    total := some 999 }

/-- Product 1 after the sale of `reqEj`: stock went from 10 to 7. -/
def pEjFin : Producto :=
  { id := 1, nombre := "P", descripcion := none, precio_venta := 500,
    costo_compra := none, stock := 7, categoria_id := 1 }

/-- Customer 5 after the sale of `reqEj`: `ultima_compra` stamped. -/
def cEjFin : Cliente :=
  { id := 5, nombre := "Juan", apellido := none, telefono := "123",
    direccion := none, email := none, fecha_registro := 0,
    ultima_compra := some 1000, ticket_promedio := 0,
    productos_favoritos := none }

/-- The persisted sale header of `reqEj`: total overwritten to 1500. -/
def vEjFin : Venta :=
  { id := 1, fecha_venta := 1000, total := 1500, metodo_pago := "efectivo",
    estado := "completada", cliente_id := some 5, usuario_id := 7 }

/-- The persisted line item of `reqEj`. -/
def dEjFin : VentaDetalle :=
  { id := 1, cantidad := 3, precio_unitario := 500, subtotal := 1500,
    venta_id := 1, producto_id := 1 }

/-- The committed store after `reqEj` succeeds against `dbEj`. -/
def dbEjFin : DB :=
  { productos := [pEjFin], clientes := [cEjFin], ventas := [vEjFin],
    ventas_detalles := [dEjFin], nextVentaId := 2, nextDetalleId := 2 }

/-- A request for more units (11) than product 1 has in stock (10). -/
def reqSinStockEj : VentaRequest :=
  { cliente_id := some 5, metodo_pago := "efectivo",
    detalles := [{ producto_id := 1, cantidad := 11, precio_unitario := some 500 }],
    total := none }

/-- A request whose second item references a product id that does not
exist, after a valid first item. -/
def reqFantasmaEj : VentaRequest :=
  { cliente_id := none, metodo_pago := "tarjeta",
    detalles := [{ producto_id := 1, cantidad := 2, precio_unitario := some 500 },
                 { producto_id := 9999, cantidad := 1, precio_unitario := some 1 }],
    total := none }

/-- A request with a payment method outside the allowed enumeration. -/
def reqInvalidoEj : VentaRequest :=
  { cliente_id := none, metodo_pago := "bitcoin",
    detalles := [{ producto_id := 1, cantidad := 1, precio_unitario := some 500 }],
    total := none }

/-- A request for exactly the available stock of product 1. -/
def reqTodoStockEj : VentaRequest :=
  { cliente_id := none, metodo_pago := "efectivo",
    detalles := [{ producto_id := 1, cantidad := 10, precio_unitario := some 500 }],
    total := none }

/-! ### Helper notions and lemmas -/



lemma stockOnly_refl (l : List Producto) : StockOnly l l :=
  ⟨Producto.stock, (List.map_id l).symm⟩

lemma stockOnly_trans {l l' l'' : List Producto}
    (h : StockOnly l l') (h' : StockOnly l' l'') : StockOnly l l'' := by
  obtain ⟨f, rfl⟩ := h
  obtain ⟨g, rfl⟩ := h'
  exact ⟨fun p => g { p with stock := f p }, by rw [List.map_map]; rfl⟩

lemma stockOnly_updateStock (db : DB) (pid v : ℤ) :
    StockOnly db.productos (updateStock db pid v).productos := by
  refine ⟨fun p => if p.id == pid then v else p.stock, ?_⟩
  show db.productos.map _ = _
  apply List.map_congr_left
  intro p _
  by_cases h : p.id == pid <;> simp [h]

lemma stockOnly_find {l l' : List Producto} (h : StockOnly l l') (pid : ℤ) :
    ∃ f : Producto → ℤ,
      l'.find? (fun p => p.id == pid) =
        (l.find? fun p => p.id == pid).map fun p => { p with stock := f p } := by
  obtain ⟨f, rfl⟩ := h
  refine ⟨f, ?_⟩
  rw [List.find?_map]
  have hcomp : ((fun p : Producto => p.id == pid) ∘
      fun p : Producto => { p with stock := f p }) = fun p : Producto => p.id == pid := by
    funext p
    rfl
  rw [hcomp]

lemma optStock_updateStock (db : DB) (pid v pid' : ℤ) :
    optStock (updateStock db pid v) pid' =
      (optStock db pid').map fun s => if pid' = pid then v else s := by
  unfold optStock findProducto updateStock
  simp only []
  rw [List.find?_map]
  have hcomp : ((fun p : Producto => p.id == pid') ∘
      fun p : Producto => if p.id == pid then { p with stock := v } else p) =
      fun p : Producto => p.id == pid' := by
    funext p
    by_cases h : p.id = pid <;> simp [h]
  rw [hcomp]
  cases hf : db.productos.find? fun p => p.id == pid' with
  | none => rfl
  | some p =>
      have hid : p.id = pid' := by
        have := List.find?_some hf
        simpa using this
      by_cases h : pid' = pid
      · simp [Option.map_some, hid, h]
      · have hne : ¬ p.id = pid := by rw [hid]; exact h
        simp [Option.map_some, hne, h]

lemma findCliente_update (db : DB) (cid : ℤ) (now : ℕ) (cid' : ℤ) :
    findCliente (updateClienteUltimaCompra db cid now) cid' =
      (findCliente db cid').map fun c =>
        if cid' = cid then { c with ultima_compra := some now } else c := by
  unfold findCliente updateClienteUltimaCompra
  simp only []
  rw [List.find?_map]
  have hcomp : ((fun c : Cliente => c.id == cid') ∘
      fun c : Cliente => if c.id == cid then { c with ultima_compra := some now } else c) =
      fun c : Cliente => c.id == cid' := by
    funext c
    by_cases h : c.id = cid <;> simp [h]
  rw [hcomp]
  cases hf : db.clientes.find? fun c => c.id == cid' with
  | none => rfl
  | some c =>
      have hid : c.id = cid' := by
        have := List.find?_some hf
        simpa using this
      by_cases h : cid' = cid
      · simp [Option.map_some, hid, h]
      · have hne : ¬ c.id = cid := by rw [hid]; exact h
        simp [Option.map_some, hne, h]

lemma procesarDetalles_ok_frame {oracle : ℕ → Bool} {vid : ℤ} :
    ∀ {items : List VentaItem} {db : DB} {tot : ℚ} {acc : List StagedDetalle} {k : ℕ}
      {db' : DB} {acc' : List StagedDetalle} {tot' : ℚ} {k' : ℕ},
      procesarDetalles oracle vid items db tot acc k = .ok (db', acc', tot', k') →
      db'.clientes = db.clientes ∧ db'.ventas = db.ventas ∧
      db'.ventas_detalles = db.ventas_detalles ∧
      db'.nextVentaId = db.nextVentaId ∧ db'.nextDetalleId = db.nextDetalleId ∧
      StockOnly db.productos db'.productos := by
  intro items
  induction items with
  | nil =>
      intro db tot acc k db' acc' tot' k' h
      simp only [procesarDetalles, Except.ok.injEq, Prod.mk.injEq] at h
      obtain ⟨h1, -, -, -⟩ := h
      subst h1
      exact ⟨rfl, rfl, rfl, rfl, rfl, stockOnly_refl _⟩
  | cons item rest ih =>
      intro db tot acc k db' acc' tot' k' h
      simp only [procesarDetalles] at h
      cases h0 : oracle k with
      | true => simp [storOp, h0] at h
      | false =>
          simp only [storOp, h0, Bool.false_eq_true, if_false] at h
          cases hf : findProducto db item.producto_id with
          | none => simp only [hf] at h; cases h
          | some producto =>
              simp only [hf] at h
              by_cases hs : producto.stock < item.cantidad
              · rw [if_pos hs] at h; cases h
              · rw [if_neg hs] at h
                cases h1 : oracle (k + 1) with
                | true => simp [storOp, h1] at h
                | false =>
                    simp only [storOp, h1, Bool.false_eq_true, if_false] at h
                    obtain ⟨hc, hv, hd, hnv, hnd, hso⟩ := ih h
                    exact ⟨hc, hv, hd, hnv, hnd,
                      stockOnly_trans (stockOnly_updateStock db item.producto_id
                        (producto.stock - item.cantidad)) hso⟩

lemma totalQty_cons (item : VentaItem) (rest : List VentaItem) (pid : ℤ) :
    totalQty (item :: rest) pid =
      (if item.producto_id = pid then item.cantidad else 0) + totalQty rest pid := by
  unfold totalQty
  rw [List.filter_cons]
  by_cases h : item.producto_id = pid <;> simp [h]

lemma optStock_eq_of_find {db : DB} {pid : ℤ} {p : Producto}
    (hf : findProducto db pid = some p) : optStock db pid = some p.stock := by
  unfold optStock
  rw [hf]
  rfl

lemma procesarDetalles_ok_stock {oracle : ℕ → Bool} {vid : ℤ} :
    ∀ {items : List VentaItem} {db : DB} {tot : ℚ} {acc : List StagedDetalle} {k : ℕ}
      {db' : DB} {acc' : List StagedDetalle} {tot' : ℚ} {k' : ℕ},
      procesarDetalles oracle vid items db tot acc k = .ok (db', acc', tot', k') →
      ∀ pid, optStock db' pid = (optStock db pid).map fun s => s - totalQty items pid := by
  intro items
  induction items with
  | nil =>
      intro db tot acc k db' acc' tot' k' h pid
      simp only [procesarDetalles, Except.ok.injEq, Prod.mk.injEq] at h
      obtain ⟨h1, -, -, -⟩ := h
      subst h1
      cases hos : optStock db pid <;> simp [totalQty]
  | cons item rest ih =>
      intro db tot acc k db' acc' tot' k' h pid
      simp only [procesarDetalles] at h
      cases h0 : oracle k with
      | true => simp [storOp, h0] at h
      | false =>
          simp only [storOp, h0, Bool.false_eq_true, if_false] at h
          cases hf : findProducto db item.producto_id with
          | none => simp only [hf] at h; cases h
          | some producto =>
              simp only [hf] at h
              by_cases hs : producto.stock < item.cantidad
              · rw [if_pos hs] at h; cases h
              · rw [if_neg hs] at h
                cases h1 : oracle (k + 1) with
                | true => simp [storOp, h1] at h
                | false =>
                    simp only [storOp, h1, Bool.false_eq_true, if_false] at h
                    have hrec := ih h pid
                    rw [hrec, optStock_updateStock, totalQty_cons]
                    cases hos : optStock db pid with
                    | none => rfl
                    | some s =>
                        simp only [Option.map_some']
                        by_cases hpid : pid = item.producto_id
                        · have hsp : s = producto.stock := by
                            have := optStock_eq_of_find hf
                            rw [← hpid] at this
                            rw [hos] at this
                            exact (Option.some.injEq _ _).mp this
                          subst hpid
                          rw [if_pos rfl, if_pos rfl, hsp]
                          congr 1
                          ring
                        · have hpid' : ¬ item.producto_id = pid := fun hc => hpid hc.symm
                          simp only [if_neg hpid, if_neg hpid']
                          congr 1
                          ring

lemma procesarDetalles_ok_nonneg {oracle : ℕ → Bool} {vid : ℤ} :
    ∀ {items : List VentaItem} {db : DB} {tot : ℚ} {acc : List StagedDetalle} {k : ℕ}
      {db' : DB} {acc' : List StagedDetalle} {tot' : ℚ} {k' : ℕ},
      procesarDetalles oracle vid items db tot acc k = .ok (db', acc', tot', k') →
      ∀ pid s', optStock db' pid = some s' → 0 ≤ s' ∨ optStock db pid = some s' := by
  intro items
  induction items with
  | nil =>
      intro db tot acc k db' acc' tot' k' h pid s' hs'
      simp only [procesarDetalles, Except.ok.injEq, Prod.mk.injEq] at h
      obtain ⟨h1, -, -, -⟩ := h
      subst h1
      exact Or.inr hs'
  | cons item rest ih =>
      intro db tot acc k db' acc' tot' k' h pid s' hs'
      simp only [procesarDetalles] at h
      cases h0 : oracle k with
      | true => simp [storOp, h0] at h
      | false =>
          simp only [storOp, h0, Bool.false_eq_true, if_false] at h
          cases hf : findProducto db item.producto_id with
          | none => simp only [hf] at h; cases h
          | some producto =>
              simp only [hf] at h
              by_cases hs : producto.stock < item.cantidad
              · rw [if_pos hs] at h; cases h
              · rw [if_neg hs] at h
                cases h1 : oracle (k + 1) with
                | true => simp [storOp, h1] at h
                | false =>
                    simp only [storOp, h1, Bool.false_eq_true, if_false] at h
                    rcases ih h pid s' hs' with hle | hcase
                    · exact Or.inl hle
                    · rw [optStock_updateStock] at hcase
                      by_cases hpid : pid = item.producto_id
                      · subst hpid
                        rw [optStock_eq_of_find hf] at hcase
                        simp at hcase
                        left
                        omega
                      · cases hos : optStock db pid with
                        | none => rw [hos] at hcase; cases hcase
                        | some s =>
                            rw [hos] at hcase
                            simp only [Option.map_some', if_neg hpid,
                              Option.some.injEq] at hcase
                            right
                            exact congrArg some hcase

lemma sumSub_nil : sumSub [] = 0 := rfl

lemma sumSub_cons (d : StagedDetalle) (l : List StagedDetalle) :
    sumSub (d :: l) = d.subtotal + sumSub l := by
  unfold sumSub
  simp


lemma procesarDetalles_ok_staged {oracle : ℕ → Bool} {vid : ℤ} {db0 : DB} :
    ∀ {items : List VentaItem} {db : DB} {tot : ℚ} {acc : List StagedDetalle} {k : ℕ}
      {db' : DB} {acc' : List StagedDetalle} {tot' : ℚ} {k' : ℕ},
      StockOnly db0.productos db.productos →
      procesarDetalles oracle vid items db tot acc k = .ok (db', acc', tot', k') →
      ∃ news, acc' = acc ++ news ∧ tot' = tot + sumSub news ∧
        List.Forall₂ (DetalleCorresponde db0 vid) news items := by
  intro items
  induction items with
  | nil =>
      intro db tot acc k db' acc' tot' k' hs0 h
      simp only [procesarDetalles, Except.ok.injEq, Prod.mk.injEq] at h
      obtain ⟨-, h2, h3, -⟩ := h
      exact ⟨[], by simp [h2.symm], by simp [sumSub_nil, h3.symm], List.Forall₂.nil⟩
  | cons item rest ih =>
      intro db tot acc k db' acc' tot' k' hs0 h
      simp only [procesarDetalles] at h
      cases h0 : oracle k with
      | true => simp [storOp, h0] at h
      | false =>
          simp only [storOp, h0, Bool.false_eq_true, if_false] at h
          cases hf : findProducto db item.producto_id with
          | none => simp only [hf] at h; cases h
          | some producto =>
              simp only [hf] at h
              by_cases hs : producto.stock < item.cantidad
              · rw [if_pos hs] at h; cases h
              · rw [if_neg hs] at h
                cases h1 : oracle (k + 1) with
                | true => simp [storOp, h1] at h
                | false =>
                    simp only [storOp, h1, Bool.false_eq_true, if_false] at h
                    have hs0' : StockOnly db0.productos
                        (updateStock db item.producto_id
                          (producto.stock - item.cantidad)).productos :=
                      stockOnly_trans hs0
                        (stockOnly_updateStock db item.producto_id
                          (producto.stock - item.cantidad))
                    obtain ⟨news, hacc, htot, hcorr⟩ := ih hs0' h
                    obtain ⟨p0, hp0⟩ : ∃ p0, findProducto db0 item.producto_id = some p0 ∧
                        producto.precio_venta = p0.precio_venta := by
                      obtain ⟨f, hfind⟩ := stockOnly_find hs0 item.producto_id
                      have hf' : db.productos.find?
                          (fun p => p.id == item.producto_id) = some producto := hf
                      rw [hf'] at hfind
                      cases hg : db0.productos.find? fun p => p.id == item.producto_id with
                      | none => rw [hg] at hfind; cases hfind
                      | some p0 =>
                          rw [hg] at hfind
                          simp only [Option.map_some', Option.some.injEq] at hfind
                          exact ⟨p0, hg, by rw [hfind]⟩
                    refine ⟨{ venta_id := vid, producto_id := item.producto_id,
                              cantidad := item.cantidad,
                              precio_unitario := jsOr item.precio_unitario producto.precio_venta,
                              subtotal := (item.cantidad : ℚ) *
                                jsOr item.precio_unitario producto.precio_venta } :: news,
                            ?_, ?_, ?_⟩
                    · rw [hacc]
                      simp
                    · rw [htot, sumSub_cons]
                      ring
                    · refine List.Forall₂.cons ⟨rfl, rfl, rfl, rfl, p0, hp0.1, ?_⟩ hcorr
                      rw [hp0.2]

lemma procesarDetalles_append {oracle : ℕ → Bool} {vid : ℤ} :
    ∀ (l1 l2 : List VentaItem) (db : DB) (tot : ℚ) (acc : List StagedDetalle) (k : ℕ),
      procesarDetalles oracle vid (l1 ++ l2) db tot acc k =
        match procesarDetalles oracle vid l1 db tot acc k with
        | .error e => .error e
        | .ok (db1, acc1, tot1, k1) => procesarDetalles oracle vid l2 db1 tot1 acc1 k1 := by
  intro l1
  induction l1 with
  | nil => intro l2 db tot acc k; rfl
  | cons item rest ih =>
      intro l2 db tot acc k
      show procesarDetalles oracle vid (item :: (rest ++ l2)) db tot acc k = _
      simp only [procesarDetalles]
      cases h0 : oracle k with
      | true => simp [storOp, h0]
      | false =>
          simp only [storOp, h0, Bool.false_eq_true, if_false]
          cases hf : findProducto db item.producto_id with
          | none => rfl
          | some producto =>
              by_cases hs : producto.stock < item.cantidad
              · simp [hs]
              · simp only [if_neg hs]
                cases h1 : oracle (k + 1) with
                | true => simp [storOp, h1]
                | false =>
                    simp only [storOp, h1, Bool.false_eq_true, if_false]
                    exact ih l2 _ _ _ _

lemma clienteStep_none (oracle : ℕ → Bool) (now : ℕ) (db : DB) (k : ℕ) :
    clienteStep oracle none now db k = .ok (db, k) := rfl

lemma clienteStep_unresolved (oracle : ℕ → Bool) (cid : ℤ) (now : ℕ) (db : DB) (k : ℕ)
    (hcid : cid ≠ 0) (hres : findCliente db cid = none) (hk : oracle k = false) :
    clienteStep oracle (some cid) now db k = .ok (db, k + 1) := by
  unfold clienteStep
  simp only [jsTruthyInt]
  rw [if_neg hcid]
  simp only [storOp, hk, Bool.false_eq_true, if_false, hres]

lemma clienteStep_resolved_ok {oracle : ℕ → Bool} {cid : ℤ} {now : ℕ} {db db2 : DB}
    {k k2 : ℕ} {c : Cliente} (hcid : cid ≠ 0) (hres : findCliente db cid = some c)
    (h : clienteStep oracle (some cid) now db k = .ok (db2, k2)) :
    db2 = updateClienteUltimaCompra db cid now := by
  unfold clienteStep at h
  simp only [jsTruthyInt] at h
  rw [if_neg hcid] at h
  cases hk : oracle k with
  | true => simp [storOp, hk] at h
  | false =>
      simp only [storOp, hk, Bool.false_eq_true, if_false, hres] at h
      cases hk2 : oracle (k + 1) with
      | true => simp [storOp, hk2] at h
      | false =>
          simp only [storOp, hk2, Bool.false_eq_true, if_false,
            Except.ok.injEq, Prod.mk.injEq] at h
          exact h.1.symm

lemma clienteStep_ok_cases {oracle : ℕ → Bool} {cid : Option ℤ} {now : ℕ}
    {db db2 : DB} {k k2 : ℕ}
    (h : clienteStep oracle cid now db k = .ok (db2, k2)) :
    db2 = db ∨ ∃ cid' c, jsTruthyInt cid = some cid' ∧ findCliente db cid' = some c ∧
      db2 = updateClienteUltimaCompra db cid' now := by
  unfold clienteStep at h
  cases hj : jsTruthyInt cid with
  | none =>
      rw [hj] at h
      simp only [Except.ok.injEq, Prod.mk.injEq] at h
      exact Or.inl h.1.symm
  | some cid' =>
      rw [hj] at h
      cases hk : oracle k with
      | true => simp [storOp, hk] at h
      | false =>
          simp only [storOp, hk, Bool.false_eq_true, if_false] at h
          cases hres : findCliente db cid' with
          | none =>
              rw [hres] at h
              simp only [Except.ok.injEq, Prod.mk.injEq] at h
              exact Or.inl h.1.symm
          | some c =>
              rw [hres] at h
              cases hk2 : oracle (k + 1) with
              | true => simp [storOp, hk2] at h
              | false =>
                  simp only [storOp, hk2, Bool.false_eq_true, if_false,
                    Except.ok.injEq, Prod.mk.injEq] at h
                  exact Or.inr ⟨cid', c, rfl, hres, h.1.symm⟩

lemma clienteStep_noFail_ok (cid : Option ℤ) (now : ℕ) (db : DB) (k : ℕ) :
    ∃ db2 k2, clienteStep noFail cid now db k = .ok (db2, k2) := by
  unfold clienteStep
  cases hj : jsTruthyInt cid with
  | none => exact ⟨db, k, rfl⟩
  | some cid' =>
      simp only [storOp, noFail, Bool.false_eq_true, if_false]
      cases hres : findCliente db cid' with
      | none => exact ⟨db, k + 1, rfl⟩
      | some c => exact ⟨updateClienteUltimaCompra db cid' now, k + 2, rfl⟩

lemma transaccionVenta_ok_decomp {oracle : ℕ → Bool} {uid : ℤ} {now : ℕ}
    {req : VentaRequest} {db db' : DB} {vid : ℤ}
    (h : transaccionVenta oracle uid now req db = .ok (db', vid)) :
    vid = db.nextVentaId ∧
    ∃ (db2 : DB) (staged : List StagedDetalle) (tot : ℚ) (k0 kloop kc k5 : ℕ) (db5 : DB),
      procesarDetalles oracle db.nextVentaId req.detalles
        (dbConVenta uid now req db) 0 [] k0 = .ok (db2, staged, tot, kloop) ∧
      clienteStep oracle req.cliente_id now
        (updateVentaTotal (dbBulk db2 staged) db.nextVentaId tot) kc = .ok (db5, k5) ∧
      db' = db5 := by
  unfold transaccionVenta at h
  split at h
  · exact Except.noConfusion h
  next k0 heq0 =>
    split at h
    · exact Except.noConfusion h
    next db2 staged tot kloop heq1 =>
      split at h
      · exact Except.noConfusion h
      next ka heqa =>
        split at h
        · exact Except.noConfusion h
        next kb heqb =>
          split at h
          · exact Except.noConfusion h
          next db5 kcdone heqc =>
            split at h
            · exact Except.noConfusion h
            next kz heqz =>
              injection h with h1
              injection h1 with hdb hvid
              exact ⟨hvid.symm, db2, staged, tot, k0, kloop, kb, kcdone, db5,
                heq1, heqc, hdb.symm⟩

lemma optStock_congr {dbA dbB : DB} (h : dbA.productos = dbB.productos) (pid : ℤ) :
    optStock dbA pid = optStock dbB pid := by
  unfold optStock findProducto
  rw [h]

lemma findCliente_congr {dbA dbB : DB} (h : dbA.clientes = dbB.clientes) (cid : ℤ) :
    findCliente dbA cid = findCliente dbB cid := by
  unfold findCliente
  rw [h]

lemma postVenta_ok_valid {oracle : ℕ → Bool} {uid : ℤ} {now : ℕ}
    {req : VentaRequest} {db db' : DB} {vid : ℤ}
    (h : postVenta oracle uid now req db = (db', .ok vid)) :
    ventaPOST_valid req = true ∧
    transaccionVenta oracle uid now req db = .ok (db', vid) := by
  unfold postVenta at h
  by_cases hv : ventaPOST_valid req
  · rw [if_pos hv] at h
    refine ⟨hv, ?_⟩
    split at h
    · next db'' vid' heq =>
        injection h with h1 h2
        injection h2 with h3
        rw [heq, h1, h3]
    · next e heq =>
        injection h with h1 h2
        exact Except.noConfusion h2
  · rw [if_neg hv] at h
    injection h with h1 h2
    exact Except.noConfusion h2

lemma postVenta_ok_spec {oracle : ℕ → Bool} {uid : ℤ} {now : ℕ}
    {req : VentaRequest} {db db' : DB} {vid : ℤ}
    (h : postVenta oracle uid now req db = (db', .ok vid)) :
    ventaPOST_valid req = true ∧
    vid = db.nextVentaId ∧
    ∃ staged : List StagedDetalle,
      List.Forall₂ (DetalleCorresponde db vid) staged req.detalles ∧
      db'.ventas_detalles = db.ventas_detalles ++ assignIds db.nextDetalleId staged ∧
      db'.ventas = (db.ventas ++ [nuevaVenta uid now req db]).map
        (fun v => if v.id == vid then { v with total := sumSub staged } else v) ∧
      (∀ pid, optStock db' pid =
        (optStock db pid).map fun s => s - totalQty req.detalles pid) ∧
      (∀ pid s', optStock db' pid = some s' → 0 ≤ s' ∨ optStock db pid = some s') ∧
      (db'.clientes = db.clientes ∨
        ∃ cid c, jsTruthyInt req.cliente_id = some cid ∧
          findCliente db cid = some c ∧
          db'.clientes = db.clientes.map fun c0 =>
            if c0.id == cid then { c0 with ultima_compra := some now } else c0) := by
  obtain ⟨hv, ht⟩ := postVenta_ok_valid h
  obtain ⟨hvid, db2, staged, tot, k0, kloop, kc, k5, db5, hloop, hcli, hdb'⟩ :=
    transaccionVenta_ok_decomp ht
  subst hvid
  subst hdb'
  obtain ⟨hc2, hv2, hd2, -, hnd2, -⟩ := procesarDetalles_ok_frame hloop
  have hstock := procesarDetalles_ok_stock hloop
  have hnn := procesarDetalles_ok_nonneg hloop
  obtain ⟨news, hacc, htot, hcorr⟩ :=
    procesarDetalles_ok_staged (stockOnly_refl _) hloop
  have hstag : staged = news := by
    rw [hacc]
    rfl
  subst hstag
  have htot' : tot = sumSub staged := by
    rw [htot]
    ring
  subst htot'
  have hcase := clienteStep_ok_cases hcli
  have hcliC : (updateVentaTotal (dbBulk db2 staged)
      db.nextVentaId (sumSub staged)).clientes = db.clientes := hc2
  have hprodC : db'.productos = db2.productos := by
    rcases hcase with h5 | ⟨cid, c, -, -, h5⟩ <;> rw [h5] <;> rfl
  have hdetC : db'.ventas_detalles =
      db.ventas_detalles ++ assignIds db.nextDetalleId staged := by
    have hstep : db'.ventas_detalles =
        db2.ventas_detalles ++ assignIds db2.nextDetalleId staged := by
      rcases hcase with h5 | ⟨cid, c, -, -, h5⟩ <;> rw [h5] <;> rfl
    rw [hstep, hd2, hnd2]
    rfl
  have hvenC : db'.ventas = (db.ventas ++ [nuevaVenta uid now req db]).map
      (fun v => if v.id == db.nextVentaId then
        { v with total := sumSub staged } else v) := by
    have hstep : db'.ventas = db2.ventas.map
        (fun v => if v.id == db.nextVentaId then
          { v with total := sumSub staged } else v) := by
      rcases hcase with h5 | ⟨cid, c, -, -, h5⟩ <;> rw [h5] <;> rfl
    rw [hstep, hv2]
    rfl
  refine ⟨hv, rfl, staged, hcorr, hdetC, hvenC, ?_, ?_, ?_⟩
  · intro pid
    rw [optStock_congr hprodC pid]
    exact hstock pid
  · intro pid s' hs'
    rw [optStock_congr hprodC pid] at hs'
    exact hnn pid s' hs'
  · rcases hcase with h5 | ⟨cid, c, hjt, hfc, h5⟩
    · left
      rw [h5]
      exact hcliC
    · right
      refine ⟨cid, c, hjt, ?_, ?_⟩
      · rw [← findCliente_congr hcliC cid]
        exact hfc
      · rw [h5]
        show ((updateVentaTotal (dbBulk db2 staged)
            db.nextVentaId (sumSub staged)).clientes.map fun c0 =>
          if c0.id == cid then { c0 with ultima_compra := some now } else c0) = _
        rw [hcliC]

lemma postVenta_error_rollback {oracle : ℕ → Bool} {uid : ℤ} {now : ℕ}
    {req : VentaRequest} {db db' : DB} {e : VentaError}
    (h : postVenta oracle uid now req db = (db', .error e)) : db' = db := by
  unfold postVenta at h
  by_cases hv : ventaPOST_valid req
  · rw [if_pos hv] at h
    split at h
    · next db'' vid' heq =>
        injection h with h1 h2
        exact Except.noConfusion h2
    · next e' heq =>
        injection h with h1 h2
        exact h1.symm
  · rw [if_neg hv] at h
    injection h with h1 h2
    exact h1.symm

lemma detalleCorresponde_mem {db0 : DB} {vid : ℤ} {staged : List StagedDetalle}
    {items : List VentaItem}
    (h : List.Forall₂ (DetalleCorresponde db0 vid) staged items) :
    ∀ s ∈ staged, s.venta_id = vid ∧
      s.subtotal = (s.cantidad : ℚ) * s.precio_unitario := by
  induction h with
  | nil => intro s hs; cases hs
  | cons hR hF ih =>
      intro s hs
      rcases List.mem_cons.mp hs with rfl | hs'
      · exact ⟨hR.1, hR.2.2.2.1⟩
      · exact ih s hs'

lemma assignIds_mem {nid : ℤ} {staged : List StagedDetalle} :
    ∀ d ∈ assignIds nid staged, ∃ s ∈ staged,
      d.venta_id = s.venta_id ∧ d.cantidad = s.cantidad ∧
      d.precio_unitario = s.precio_unitario ∧ d.subtotal = s.subtotal ∧
      d.producto_id = s.producto_id := by
  induction staged generalizing nid with
  | nil => intro d hd; cases hd
  | cons s tl ih =>
      intro d hd
      rcases List.mem_cons.mp hd with rfl | hd'
      · exact ⟨s, List.mem_cons_self s tl, rfl, rfl, rfl, rfl, rfl⟩
      · obtain ⟨s', hs', hfields⟩ := ih d hd'
        exact ⟨s', List.mem_cons_of_mem s hs', hfields⟩

lemma assignIds_map_subtotal (nid : ℤ) (staged : List StagedDetalle) :
    (assignIds nid staged).map (·.subtotal) = staged.map (·.subtotal) := by
  induction staged generalizing nid with
  | nil => rfl
  | cons s tl ih => simp [assignIds, ih]

lemma assignIds_filter_venta {nid : ℤ} {staged : List StagedDetalle} {vid : ℤ}
    (hall : ∀ s ∈ staged, s.venta_id = vid) :
    (assignIds nid staged).filter (fun d => d.venta_id == vid) =
      assignIds nid staged := by
  rw [List.filter_eq_self]
  intro d hd
  obtain ⟨s, hs, h1, -⟩ := assignIds_mem d hd
  simp [h1, hall s hs]

lemma sumSubtotales_after {db db' : DB} {staged : List StagedDetalle} {vid : ℤ}
    (hfreshd : ∀ d ∈ db.ventas_detalles, d.venta_id ≠ vid)
    (hdet : db'.ventas_detalles =
      db.ventas_detalles ++ assignIds db.nextDetalleId staged)
    (hall : ∀ s ∈ staged, s.venta_id = vid) :
    sumSubtotales db' vid = sumSub staged := by
  unfold sumSubtotales
  rw [hdet, List.filter_append]
  have h1 : db.ventas_detalles.filter (fun d => d.venta_id == vid) = [] := by
    rw [List.filter_eq_nil_iff]
    intro d hd
    simp [hfreshd d hd]
  rw [h1, assignIds_filter_venta hall, List.nil_append,
    assignIds_map_subtotal]
  rfl

lemma findVenta_spec {db db' : DB} {vid : ℤ} {uid : ℤ} {now : ℕ}
    {req : VentaRequest} {t : ℚ}
    (hfresh : ∀ v ∈ db.ventas, v.id ≠ vid)
    (hvid : vid = db.nextVentaId)
    (hven : db'.ventas = (db.ventas ++ [nuevaVenta uid now req db]).map
      (fun v => if v.id == vid then { v with total := t } else v)) :
    findVenta db' vid = some { nuevaVenta uid now req db with total := t } := by
  unfold findVenta
  rw [hven, List.find?_map]
  have hcomp : ((fun v : Venta => v.id == vid) ∘
      fun v : Venta => if v.id == vid then { v with total := t } else v) =
      fun v : Venta => v.id == vid := by
    funext v
    by_cases hvv : v.id = vid <;> simp [hvv]
  rw [hcomp, List.find?_append]
  have h1 : db.ventas.find? (fun v => v.id == vid) = none := by
    rw [List.find?_eq_none]
    intro v hv
    simp [hfresh v hv]
  have h2 : [nuevaVenta uid now req db].find? (fun v => v.id == vid) =
      some (nuevaVenta uid now req db) := by
    have : (nuevaVenta uid now req db).id = vid := hvid.symm
    simp [List.find?, this]
  rw [h1, h2]
  simp only [Option.or, Option.map_some']
  have : (nuevaVenta uid now req db).id = vid := hvid.symm
  simp [this]

/-! ### Claim theorems -/

/-- C1: for every sale request that `POST /api/ventas` completes
successfully, the persisted `Venta.total` equals the exact sum of the
persisted line-item subtotals, each persisted subtotal is quantity times the
recorded unit price, and whenever the caller-supplied advisory total differs
from that sum the persisted total is not the caller's value: the provisional
total written at `Venta.create` is overwritten with `totalCalculado` before
commit. -/
theorem C1_total_es_suma_de_subtotales (oracle : ℕ → Bool) (uid : ℤ) (now : ℕ)
    (req : VentaRequest) (db db' : DB) (vid : ℤ)
    (hfresh : FreshVentaId db)
    (h : postVenta oracle uid now req db = (db', .ok vid)) :
    ∃ v, findVenta db' vid = some v ∧
      v.total = sumSubtotales db' vid ∧
      (∀ d ∈ db'.ventas_detalles, d.venta_id = vid →
        d.subtotal = (d.cantidad : ℚ) * d.precio_unitario) ∧
      (∀ t, req.total = some t → t ≠ sumSubtotales db' vid → v.total ≠ t) := by
  obtain ⟨hv, hvid, staged, hcorr, hdet, hven, -, -, -⟩ := postVenta_ok_spec h
  have hallv : ∀ s ∈ staged, s.venta_id = vid :=
    fun s hs => (detalleCorresponde_mem hcorr s hs).1
  have hfv : ∀ v ∈ db.ventas, v.id ≠ vid := by
    intro v hv'
    rw [hvid]
    exact hfresh.1 v hv'
  have hfd : ∀ d ∈ db.ventas_detalles, d.venta_id ≠ vid := by
    intro d hd
    rw [hvid]
    exact hfresh.2 d hd
  have hsum := sumSubtotales_after hfd hdet hallv
  have hfind := findVenta_spec hfv hvid hven
  refine ⟨_, hfind, ?_, ?_, ?_⟩
  · show sumSub staged = sumSubtotales db' vid
    exact hsum.symm
  · intro d hd hdvid
    rw [hdet] at hd
    rcases List.mem_append.mp hd with hold | hnew
    · exact absurd hdvid (hfd d hold)
    · obtain ⟨s, hs, h1, h2, h3, h4, h5⟩ := assignIds_mem d hnew
      have hsub := (detalleCorresponde_mem hcorr s hs).2
      rw [h4, hsub, h2, h3]
  · intro t ht hne heq
    exact hne (heq.symm.trans hsum.symm)

/-- C2: for every request on which the route reports a failure of any kind
(validation rejection, product not found, insufficient stock, or a
storage-level throw at any primitive, caught by the `catch` block), the
observable store afterwards is exactly the store from before the request:
the whole unit of work is rolled back, no sale header, line item, stock
decrement or customer update persists, and the outcome is one of the
classified errors. -/
theorem C2_fallo_revierte_todo (oracle : ℕ → Bool) (uid : ℤ) (now : ℕ)
    (req : VentaRequest) (db db' : DB) (e : VentaError)
    (h : postVenta oracle uid now req db = (db', .error e)) : db' = db :=
  postVenta_error_rollback h

/-- C3: for every successful sale, each product's stock decreases by exactly
the total quantity requested for it across the request's line items (the
per-product decrements accumulate because each iteration reads the store it
just wrote), and a product that was actually sold (positive total quantity)
never ends with negative stock. -/
theorem C3_conservacion_de_stock (oracle : ℕ → Bool) (uid : ℤ) (now : ℕ)
    (req : VentaRequest) (db db' : DB) (vid : ℤ)
    (h : postVenta oracle uid now req db = (db', .ok vid)) :
    ∀ pid, optStock db' pid =
        (optStock db pid).map (fun s => s - totalQty req.detalles pid) ∧
      (∀ s', 0 < totalQty req.detalles pid →
        optStock db' pid = some s' → 0 ≤ s') := by
  obtain ⟨-, -, staged, -, -, -, hstock, hnn, -⟩ := postVenta_ok_spec h
  intro pid
  refine ⟨hstock pid, ?_⟩
  intro s' hpos hs'
  rcases hnn pid s' hs' with hle | heq
  · exact hle
  · rw [hstock pid, heq] at hs'
    simp only [Option.map_some', Option.some.injEq] at hs'
    omega

/-- C4: when the per-item loop reaches a line item whose requested quantity
strictly exceeds the referenced product's stock as seen inside the unit of
work (i.e. after the decrements of any earlier items of the same request),
the whole run fails with `insufficientStock` carrying the product's name and
its available stock; and every failing request is rolled back in full. -/
theorem C4_stock_insuficiente_aborta :
    (∀ (oracle : ℕ → Bool) (vid : ℤ) (pre : List VentaItem) (item : VentaItem)
       (rest : List VentaItem) (db dbw : DB) (tot tot' : ℚ)
       (acc acc' : List StagedDetalle) (k k' : ℕ) (p : Producto),
       procesarDetalles oracle vid pre db tot acc k = .ok (dbw, acc', tot', k') →
       oracle k' = false →
       findProducto dbw item.producto_id = some p →
       p.stock < item.cantidad →
       procesarDetalles oracle vid (pre ++ item :: rest) db tot acc k =
         .error (.insufficientStock p.nombre p.stock)) ∧
    (∀ (oracle : ℕ → Bool) (uid : ℤ) (now : ℕ) (req : VentaRequest)
       (db db' : DB) (nombre : String) (s : ℤ),
       postVenta oracle uid now req db = (db', .error (.insufficientStock nombre s)) →
       db' = db) := by
  constructor
  · intro oracle vid pre item rest db dbw tot tot' acc acc' k k' p hpre hk hf hs
    rw [procesarDetalles_append, hpre]
    simp only [procesarDetalles, storOp, hk, Bool.false_eq_true, if_false, hf]
    rw [if_pos hs]
  · intro oracle uid now req db db' nombre s h
    exact postVenta_error_rollback h

/-- C5: when the per-item loop reaches a line item whose `producto_id` does
not reference an existing product — even if all earlier items of the same
request were valid and already processed — the whole run fails with
`notFound` carrying the offending product id; and every failing request is
rolled back in full. -/
theorem C5_producto_inexistente_aborta :
    (∀ (oracle : ℕ → Bool) (vid : ℤ) (pre : List VentaItem) (item : VentaItem)
       (rest : List VentaItem) (db dbw : DB) (tot tot' : ℚ)
       (acc acc' : List StagedDetalle) (k k' : ℕ),
       procesarDetalles oracle vid pre db tot acc k = .ok (dbw, acc', tot', k') →
       oracle k' = false →
       findProducto dbw item.producto_id = none →
       procesarDetalles oracle vid (pre ++ item :: rest) db tot acc k =
         .error (.notFound item.producto_id)) ∧
    (∀ (oracle : ℕ → Bool) (uid : ℤ) (now : ℕ) (req : VentaRequest)
       (db db' : DB) (pid : ℤ),
       postVenta oracle uid now req db = (db', .error (.notFound pid)) →
       db' = db) := by
  constructor
  · intro oracle vid pre item rest db dbw tot tot' acc acc' k k' hpre hk hf
    rw [procesarDetalles_append, hpre]
    simp only [procesarDetalles, storOp, hk, Bool.false_eq_true, if_false, hf]
  · intro oracle uid now req db db' pid h
    exact postVenta_error_rollback h

lemma assignIds_forall₂ {db0 : DB} {vid : ℤ} {staged : List StagedDetalle}
    {items : List VentaItem}
    (h : List.Forall₂ (DetalleCorresponde db0 vid) staged items) :
    ∀ nid, List.Forall₂ (fun (d : VentaDetalle) (item : VentaItem) =>
      d.venta_id = vid ∧ d.producto_id = item.producto_id ∧
      d.cantidad = item.cantidad ∧
      d.subtotal = (d.cantidad : ℚ) * d.precio_unitario ∧
      ∃ p, findProducto db0 item.producto_id = some p ∧
        d.precio_unitario = jsOr item.precio_unitario p.precio_venta)
      (assignIds nid staged) items := by
  induction h with
  | nil => intro nid; exact List.Forall₂.nil
  | cons hR hF ih =>
      intro nid
      exact List.Forall₂.cons
        ⟨hR.1, hR.2.1, hR.2.2.1, hR.2.2.2.1, hR.2.2.2.2⟩ (ih (nid + 1))

/-- C6: on success, the persisted line items of the new sale correspond
one-to-one, in order, to the request's items, and each records as unit price
`item.precio_unitario || producto.precio_venta`: the caller's price when it
is present and truthy, else the product's catalog sale price — and since JS
`||` treats `0` as falsy, a supplied price of exactly `0` falls back to the
catalog price. -/
theorem C6_precio_unitario_efectivo (oracle : ℕ → Bool) (uid : ℤ) (now : ℕ)
    (req : VentaRequest) (db db' : DB) (vid : ℤ)
    (hfresh : FreshVentaId db)
    (h : postVenta oracle uid now req db = (db', .ok vid)) :
    List.Forall₂ (fun (d : VentaDetalle) (item : VentaItem) =>
        d.producto_id = item.producto_id ∧ d.cantidad = item.cantidad ∧
        ∃ p, findProducto db item.producto_id = some p ∧
          d.precio_unitario = jsOr item.precio_unitario p.precio_venta)
      (db'.ventas_detalles.filter fun d => d.venta_id == vid) req.detalles ∧
    (∀ y : ℚ, jsOr none y = y) ∧
    (∀ y : ℚ, jsOr (some 0) y = y) ∧
    (∀ x y : ℚ, x ≠ 0 → jsOr (some x) y = x) := by
  obtain ⟨hv, hvid, staged, hcorr, hdet, -, -, -, -⟩ := postVenta_ok_spec h
  have hallv : ∀ s ∈ staged, s.venta_id = vid :=
    fun s hs => (detalleCorresponde_mem hcorr s hs).1
  have hfd : ∀ d ∈ db.ventas_detalles, d.venta_id ≠ vid := by
    intro d hd
    rw [hvid]
    exact hfresh.2 d hd
  refine ⟨?_, fun y => rfl, fun y => by simp [jsOr], fun x y hx => by simp [jsOr, hx]⟩
  have hfil : db'.ventas_detalles.filter (fun d => d.venta_id == vid) =
      assignIds db.nextDetalleId staged := by
    rw [hdet, List.filter_append]
    have h1 : db.ventas_detalles.filter (fun d => d.venta_id == vid) = [] := by
      rw [List.filter_eq_nil_iff]
      intro d hd
      simp [hfd d hd]
    rw [h1, assignIds_filter_venta hallv, List.nil_append]
  rw [hfil]
  exact List.Forall₂.imp
    (fun d item hr => ⟨hr.2.1, hr.2.2.1, hr.2.2.2.2⟩)
    (assignIds_forall₂ hcorr db.nextDetalleId)

/-- C7: a request whose payment method is not one of the four allowed
values, or whose line-item list is empty, or containing an item with
non-positive quantity or a non-positive supplied unit price, is rejected by
the `validate(schemas.ventaPOST)` middleware as a validation failure before
the handler body runs: the store is untouched and the outcome does not
depend on the storage oracle, i.e. no store interaction happens at all. -/
theorem C7_validacion_rechaza_antes (req : VentaRequest)
    (h : req.metodo_pago ∉ metodosValidos ∨ req.detalles = [] ∨
      ∃ item ∈ req.detalles, item.cantidad ≤ 0 ∨
        ∃ p, item.precio_unitario = some p ∧ p ≤ 0) :
    ∀ (oracle : ℕ → Bool) (uid : ℤ) (now : ℕ) (db : DB),
      postVenta oracle uid now req db = (db, .error .validationError) := by
  have hval : ¬ ventaPOST_valid req = true := by
    intro hv
    simp only [ventaPOST_valid, Bool.and_eq_true, List.all_eq_true,
      decide_eq_true_eq] at hv
    obtain ⟨⟨⟨⟨-, hm⟩, hlen⟩, hitems⟩, -⟩ := hv
    rcases h with hbad | hbad | ⟨item, hmem, hbad⟩
    · exact hbad (by simpa using hm)
    · rw [hbad] at hlen
      simp at hlen
    · have hi := hitems item hmem
      simp only [Bool.and_eq_true, decide_eq_true_eq] at hi
      obtain ⟨⟨-, hcant⟩, hprec⟩ := hi
      rcases hbad with hc0 | ⟨p, hp, hple⟩
      · omega
      · rw [hp] at hprec
        simp only [decide_eq_true_eq] at hprec
        have hpos : (0 : ℚ) < mkRat 1 100 := by
          rw [Rat.mkRat_eq_div]
          norm_num
        linarith
  intro oracle uid now db
  unfold postVenta
  rw [if_neg hval]

/-- C8: customer handling of a successful sale.  (a) If the request carries
a customer reference that resolves to an existing customer, that customer's
`ultima_compra` is set to the current time inside the same unit of work, so
it is visible in the committed store.  (b) If the reference does not resolve,
the customer step silently skips — it returns success, touches nothing, and
raises no error.  (c) If no customer reference was supplied, no customer row
is touched at all. -/
theorem C8_actualizacion_cliente (oracle : ℕ → Bool) (uid : ℤ) (now : ℕ)
    (req : VentaRequest) (db db' : DB) (vid : ℤ) :
    (∀ cid c, req.cliente_id = some cid →
      findCliente db cid = some c →
      postVenta oracle uid now req db = (db', .ok vid) →
      ∃ c', findCliente db' cid = some c' ∧ c'.ultima_compra = some now) ∧
    (∀ (cid : ℤ) (db0 : DB) (k : ℕ), cid ≠ 0 → findCliente db0 cid = none →
      oracle k = false →
      clienteStep oracle (some cid) now db0 k = .ok (db0, k + 1)) ∧
    (req.cliente_id = none →
      postVenta oracle uid now req db = (db', .ok vid) →
      db'.clientes = db.clientes) := by
  refine ⟨?_, ?_, ?_⟩
  · intro cid c hreq hc h
    obtain ⟨hv, ht⟩ := postVenta_ok_valid h
    obtain ⟨hvid, db2, staged, tot, k0, kloop, kc, k5, db5, hloop, hcli, hdb'⟩ :=
      transaccionVenta_ok_decomp ht
    subst hdb'
    have hcid0 : cid ≠ 0 := by
      simp only [ventaPOST_valid, Bool.and_eq_true] at hv
      obtain ⟨⟨⟨⟨hc1, -⟩, -⟩, -⟩, -⟩ := hv
      rw [hreq] at hc1
      simp only [decide_eq_true_eq] at hc1
      omega
    have hCcl : (updateVentaTotal (dbBulk db2 staged)
        db.nextVentaId tot).clientes = db.clientes :=
      (procesarDetalles_ok_frame hloop).1
    rw [hreq] at hcli
    have hresC : findCliente (updateVentaTotal (dbBulk db2 staged)
        db.nextVentaId tot) cid = some c := by
      rw [findCliente_congr hCcl]
      exact hc
    have h5 := clienteStep_resolved_ok hcid0 hresC hcli
    refine ⟨{ c with ultima_compra := some now }, ?_, rfl⟩
    rw [h5, findCliente_update, findCliente_congr hCcl, hc]
    simp
  · intro cid db0 k hcid hres hk
    exact clienteStep_unresolved oracle cid now db0 k hcid hres hk
  · intro hnone h
    obtain ⟨-, -, staged, -, -, -, -, -, hcl⟩ := postVenta_ok_spec h
    rcases hcl with hcl | ⟨cid, c, hjt, -, -⟩
    · exact hcl
    · rw [hnone] at hjt
      exact Option.noConfusion hjt

/-- C10: the stock guard is strict (`producto.stock < item.cantidad`
rejects), so a line item requesting exactly the available stock is accepted:
with no storage failures the sale succeeds and the product's stock becomes
exactly 0. -/
theorem C10_cantidad_igual_stock (uid : ℤ) (now : ℕ) (req : VentaRequest)
    (db : DB) (item : VentaItem) (p : Producto)
    (hval : ventaPOST_valid req = true)
    (hdet : req.detalles = [item])
    (hp : findProducto db item.producto_id = some p)
    (hq : p.stock = item.cantidad) :
    ∃ db' vid, postVenta noFail uid now req db = (db', .ok vid) ∧
      optStock db' item.producto_id = some 0 := by
  have hpA : findProducto (dbConVenta uid now req db) item.producto_id = some p := hp
  have hns : ¬ p.stock < item.cantidad := by omega
  have hloop : procesarDetalles noFail db.nextVentaId req.detalles
      (dbConVenta uid now req db) 0 [] 1 =
      .ok (updateStock (dbConVenta uid now req db) item.producto_id
            (p.stock - item.cantidad),
           [{ venta_id := db.nextVentaId, producto_id := item.producto_id,
              cantidad := item.cantidad,
              precio_unitario := jsOr item.precio_unitario p.precio_venta,
              subtotal := (item.cantidad : ℚ) *
                jsOr item.precio_unitario p.precio_venta }],
           0 + (item.cantidad : ℚ) * jsOr item.precio_unitario p.precio_venta,
           3) := by
    rw [hdet]
    simp only [procesarDetalles, storOp, noFail, Bool.false_eq_true, if_false, hpA]
    rw [if_neg hns]
    simp
  have htrans : ∃ db5, transaccionVenta noFail uid now req db =
      .ok (db5, db.nextVentaId) ∧
      db5.productos = (updateStock (dbConVenta uid now req db) item.producto_id
        (p.stock - item.cantidad)).productos := by
    obtain ⟨db5, k5, hcs⟩ := clienteStep_noFail_ok req.cliente_id now
      (updateVentaTotal (dbBulk (updateStock (dbConVenta uid now req db)
          item.producto_id (p.stock - item.cantidad))
          [{ venta_id := db.nextVentaId, producto_id := item.producto_id,
             cantidad := item.cantidad,
             precio_unitario := jsOr item.precio_unitario p.precio_venta,
             subtotal := (item.cantidad : ℚ) *
               jsOr item.precio_unitario p.precio_venta }])
        db.nextVentaId
        (0 + (item.cantidad : ℚ) * jsOr item.precio_unitario p.precio_venta)) 5
    refine ⟨db5, ?_, ?_⟩
    · unfold transaccionVenta
      simp only [storOp, noFail, Bool.false_eq_true, if_false, hloop, hcs]
    · rcases clienteStep_ok_cases hcs with h5 | ⟨cid, c, -, -, h5⟩ <;>
        rw [h5] <;> rfl
  obtain ⟨db5, htr, hprod⟩ := htrans
  refine ⟨db5, db.nextVentaId, ?_, ?_⟩
  · unfold postVenta
    rw [if_pos hval, htr]
  · rw [optStock_congr hprod, optStock_updateStock, optStock_eq_of_find hpA]
    simp [hq]


/-! ### Concrete witnesses -/

unseal Rat.mul Rat.add in
theorem C1_total_es_suma_de_subtotales_witness :
    (findVenta dbEjFin 1).map Venta.total = some (sumSubtotales dbEjFin 1) := by
  obtain ⟨v, h1, h2, -, -⟩ := C1_total_es_suma_de_subtotales noFail 7 1000 reqEj
    dbEj dbEjFin 1 (by decide) (by decide)
  rw [h1, Option.map_some', h2]

unseal Rat.mul Rat.add in
theorem C2_fallo_revierte_todo_witness :
    postVenta noFail 7 1000 reqSinStockEj dbEj =
      (dbEj, .error (.insufficientStock pEj.nombre 10)) ∧ dbEj = dbEj :=
  ⟨by decide, C2_fallo_revierte_todo noFail 7 1000 reqSinStockEj dbEj dbEj
    (.insufficientStock pEj.nombre 10) (by decide)⟩

unseal Rat.mul Rat.add in
theorem C3_conservacion_de_stock_witness :
    optStock dbEjFin 1 =
      (optStock dbEj 1).map (fun s => s - totalQty reqEj.detalles 1) :=
  (C3_conservacion_de_stock noFail 7 1000 reqEj dbEj dbEjFin 1 (by decide) 1).1

unseal Rat.mul Rat.add in
theorem C4_stock_insuficiente_aborta_witness :
    procesarDetalles noFail 1
      ([{ producto_id := 1, cantidad := 6, precio_unitario := some 500 }] ++
        ({ producto_id := 1, cantidad := 5, precio_unitario := some 500 } : VentaItem) :: [])
      dbEj 0 [] 0 = .error (.insufficientStock pEj.nombre 4) :=
  C4_stock_insuficiente_aborta.1 noFail 1
    [{ producto_id := 1, cantidad := 6, precio_unitario := some 500 }]
    { producto_id := 1, cantidad := 5, precio_unitario := some 500 } []
    dbEj { dbEj with productos := [{ pEj with stock := 4 }] }
    0 3000 [] [{ venta_id := 1, producto_id := 1, cantidad := 6,
                 precio_unitario := 500, subtotal := 3000 }] 0 2
    { pEj with stock := 4 }
    (by decide) rfl (by decide) (by decide)

unseal Rat.mul Rat.add in
theorem C5_producto_inexistente_aborta_witness :
    procesarDetalles noFail 1
      ([{ producto_id := 1, cantidad := 2, precio_unitario := some 500 }] ++
        ({ producto_id := 9999, cantidad := 1, precio_unitario := some 1 } : VentaItem) :: [])
      dbEj 0 [] 0 = .error (.notFound 9999) :=
  C5_producto_inexistente_aborta.1 noFail 1
    [{ producto_id := 1, cantidad := 2, precio_unitario := some 500 }]
    { producto_id := 9999, cantidad := 1, precio_unitario := some 1 } []
    dbEj { dbEj with productos := [{ pEj with stock := 8 }] }
    0 1000 [] [{ venta_id := 1, producto_id := 1, cantidad := 2,
                 precio_unitario := 500, subtotal := 1000 }] 0 2
    (by decide) rfl (by decide)

unseal Rat.mul Rat.add in
theorem C6_precio_unitario_efectivo_witness :
    jsOr (some 0) 500 = 500 ∧ jsOr none 500 = 500 ∧ jsOr (some 250) 500 = 250 := by
  obtain ⟨-, h1, h2, h3⟩ := C6_precio_unitario_efectivo noFail 7 1000 reqEj dbEj
    dbEjFin 1 (by decide) (by decide)
  exact ⟨h2 500, h1 500, h3 250 500 (by norm_num)⟩

theorem C7_validacion_rechaza_antes_witness :
    postVenta noFail 7 1000 reqInvalidoEj dbEj = (dbEj, .error .validationError) :=
  C7_validacion_rechaza_antes reqInvalidoEj (Or.inl (by decide)) noFail 7 1000 dbEj

unseal Rat.mul Rat.add in
theorem C8_actualizacion_cliente_witness :
    (findCliente dbEjFin 5).map Cliente.ultima_compra = some (some 1000) := by
  obtain ⟨c', h1, h2⟩ :=
    (C8_actualizacion_cliente noFail 7 1000 reqEj dbEj dbEjFin 1).1
      5 cEj rfl (by decide) (by decide)
  rw [h1, Option.map_some', h2]

unseal Rat.mul Rat.add in
theorem C10_cantidad_igual_stock_witness :
    optStock (postVenta noFail 7 1000 reqTodoStockEj dbEj).1 1 = some 0 := by
  obtain ⟨db', vid, h1, h2⟩ := C10_cantidad_igual_stock 7 1000 reqTodoStockEj dbEj
    { producto_id := 1, cantidad := 10, precio_unitario := some 500 } pEj
    (by decide) rfl (by decide) (by decide)
  rw [h1]
  exact h2
